import Mathlib

/-!
Verification of `tv_grab_fr_telerama.py` against its natural-language
specification.

Modelling conventions:
* Python strings are modelled as `List Char`; the helper `str` turns a Lean
  string literal into its character list.
* Machine-independent integers: Python `int` is `Int` (or `Nat` where the
  source value is provably non-negative).
* Regular expressions with `re.MULTILINE` and `^`/`$` anchors are modelled by
  matching each line of the details block separately; the details block
  (field 7) is therefore a `List (List Char)` of its lines.  `\s` is modelled
  by `Char.isWhitespace`.
* Loops whose index can jump by more than one character (the nested-delimiter
  splitter, `str.replace`) are modelled with an explicit fuel argument equal
  to the length of the scanned string; since every iteration consumes at least
  one character (given a non-empty separator / pattern, which is what the
  program always passes — CPython loops forever on an empty separator), the
  fuel never runs out on the stated theorems.
-/

/-- Turn a Lean string literal into the `List Char` the model works on. -/
def str (s : String) : List Char := s.data

/-- `int(digits)` on a non-empty string of ASCII digits (source: `int(m.group(1))`). -/
def natOfDigits (l : List Char) : Nat :=
  l.foldl (fun a c => a * 10 + (c.toNat - '0'.toNat)) 0

/-- Python `str(n)` for a natural number. -/
def natChars (n : Nat) : List Char := Nat.toDigits 10 n

/-- Python `str(i)` for an integer (the source computes `season - 1` and
`episode - 1`, which can be negative). -/
def intChars (i : Int) : List Char :=
  if i < 0 then '-' :: natChars i.natAbs else natChars i.toNat

/-- Source `telerama_to_xmltv_id` (line 69): append the fixed domain suffix. -/
def telerama_to_xmltv_id (channel_id : List Char) : List Char :=
  channel_id ++ str ".tv.telerama.fr"

/-- One step of Python `str.replace(old, '')`: scan left to right, removing
every (non-overlapping, leftmost-first) occurrence of `old`.  `fuel` bounds the
iteration count; `fuel = length` suffices because each step consumes at least
one character when `old ≠ []` (the source only ever calls this with the fixed
non-empty suffix `".tv.telerama.fr"`). -/
def replaceAux (old : List Char) : Nat → List Char → List Char
  | _, [] => []
  | 0, l => l
  | fuel + 1, c :: rest =>
    if old ≠ [] ∧ old.isPrefixOf (c :: rest) then
      replaceAux old fuel ((c :: rest).drop old.length)
    else
      c :: replaceAux old fuel rest

/-- Python `s.replace(old, '')` for non-empty `old`. -/
def pyReplace (s old : List Char) : List Char := replaceAux old s.length s

/-- Source `xmltv_to_telerama_id` (line 75): `channel_id.replace('.tv.telerama.fr', '')`. -/
def xmltv_to_telerama_id (channel_id : List Char) : List Char :=
  pyReplace channel_id (str ".tv.telerama.fr")

/-- Source `translate_categories` dictionary (lines 84–121), in source order. -/
def categoryTable : List (List Char × List Char) := [
  (str "Ballet", str "Music / Ballet / Dance"),
  (str "Clips", str "Music / Ballet / Dance"),
  (str "Concert", str "Music / Ballet / Dance"),
  (str "Débat", str "Talk show"),
  (str "Dessin animé", str "Cartoons / Puppets"),
  (str "Divers", str ""),
  (str "Divertissement", str "Variety show"),
  (str "Documentaire", str "Documentary"),
  (str "Émission", str ""),
  (str "Emission du bien-être", str "Fitness and health"),
  (str "Emission du bien-êtr", str "Fitness and health"),
  (str "Feuilleton", str "Soap / Melodrama / Folkloric"),
  (str "Feuilleton sentimental", str "Romance"),
  (str "Film", str "Movie / Drama"),
  (str "Fin", str ""),
  (str "Fitness", str "Fitness and health"),
  (str "Interview", str "Discussion / Interview / Debate"),
  (str "Jeu", str "Game show / Quiz / Contest"),
  (str "Jeunesse", str "Children's / Youth programmes"),
  (str "Journal", str "News / Current affairs"),
  (str "Loterie", str "Game show / Quiz / Contest"),
  (str "Magazine", str "Magazines / Reports / Documentary"),
  (str "Météo", str "News / Weather report"),
  (str "Opéra", str "Musical / Opera"),
  (str "Politique", str "Social / Political issues / Economics"),
  (str "Religion", str "Religion"),
  (str "Série", str "Movie / Drama"),
  (str "Spectacle", str "Performing arts"),
  (str "Sport", str "Sports"),
  (str "Talk show", str "Talk show"),
  (str "Téléfilm", str "Movie / Drama"),
  (str "Téléréalité", str "Variety show"),
  (str "Théâtre", str "Performing arts"),
  (str "Tiercé", str "Sports"),
  (str "Variétés", str "Variety show"),
  (str "Voyance", str "Leisure hobbies")]

/-- Source `translate_categories` (line 81): dictionary lookup, `''` for an
unmanaged category (the `stderr` diagnostic has no effect on the output). -/
def translate_categories (category : List Char) : List Char :=
  match categoryTable.lookup category with
  | some v => v
  | none => []

/-- Source `split_outside_delimiters` loop body (lines 139–151).  The state is
the unread remainder of the string, the segment accumulator `tmp`, and the
nesting `level`; `fuel` bounds the iterations (see the header note: each
iteration consumes at least one character when the separator is non-empty,
which is the only case in which the Python loop terminates at all). -/
def splitAux (sep d1 d2 : List Char) : Nat → List Char → List Char → Int → List (List Char)
  | _, [], tmp, _ => [tmp]
  | 0, l, tmp, _ => [tmp ++ l]
  | fuel + 1, c :: rest, tmp, level =>
    if sep ≠ [] ∧ sep.isPrefixOf (c :: rest) ∧ level = 0 then
      tmp :: splitAux sep d1 d2 fuel ((c :: rest).drop sep.length) [] 0
    else
      let level2 : Int :=
        if d1.isPrefixOf (c :: rest) then level + 1
        else if d2.isPrefixOf (c :: rest) then level - 1
        else level
      splitAux sep d1 d2 fuel rest (tmp ++ [c]) level2

/-- Source `split_outside_delimiters` (line 130). -/
def split_outside_delimiters (string sep d1 d2 : List Char) : List (List Char) :=
  splitAux sep d1 d2 string.length string [] 0

/-- Python `separator.join(xs)` (used by the lossless-split property). -/
def joinSep (sep : List Char) : List (List Char) → List Char
  | [] => []
  | [x] => x
  | x :: y :: ys => x ++ sep ++ joinSep sep (y :: ys)

/-- Number of separator occurrences seen at nesting level zero by the same
left-to-right scan that `split_outside_delimiters` performs (the count the
spec's "k non-nested occurrences of the separator" refers to). -/
def countTopSepsAux (sep d1 d2 : List Char) : Nat → List Char → Int → Nat
  | _, [], _ => 0
  | 0, _, _ => 0
  | fuel + 1, c :: rest, level =>
    if sep ≠ [] ∧ sep.isPrefixOf (c :: rest) ∧ level = 0 then
      countTopSepsAux sep d1 d2 fuel ((c :: rest).drop sep.length) 0 + 1
    else
      let level2 : Int :=
        if d1.isPrefixOf (c :: rest) then level + 1
        else if d2.isPrefixOf (c :: rest) then level - 1
        else level
      countTopSepsAux sep d1 d2 fuel rest level2

/-- Separator occurrences at nesting level zero in a whole string. -/
def countTopSeps (string sep d1 d2 : List Char) : Nat :=
  countTopSepsAux sep d1 d2 string.length string 0

/-- Per-line model of the `re.MULTILINE` pattern `^<label>\s*(.+)\s*$`
(the shape used for `Showview`, `Sous-titre`, `Réalisateur`, `Acteurs`,
`Musique`, `Présentateur`, `Invités`, `Année` and `Genre` at source lines
262–354): the line must start with the label; the greedy `\s*` then swallows
the following whitespace and the greedy `(.+)` captures everything up to the
end of the line (trailing whitespace included, since the final `\s*` can match
the empty string); when the remainder is whitespace-only, regex backtracking
leaves exactly its last character to `(.+)`. -/
def labelValue (label line : List Char) : Option (List Char) :=
  if label.isPrefixOf line then
    let rest := line.drop label.length
    let v := rest.dropWhile Char.isWhitespace
    if v ≠ [] then some v
    else if rest ≠ [] then some (rest.drop (rest.length - 1))
    else none
  else none

/-- `re.search` with a line-anchored pattern over the details block: the value
from the first line that matches. -/
def findLabel (label : List Char) (lines : List (List Char)) : Option (List Char) :=
  lines.findSome? (labelValue label)

/-- Per-line model of `^Episode :\s*([0-9]+)(?:/([0-9]+))?\s*$` (source line
370): returns the two digit groups (as matched, so leading zeros survive in
group 2, which the source appends verbatim). -/
def episodeLineMatch (line : List Char) : Option (List Char × Option (List Char)) :=
  if (str "Episode :").isPrefixOf line then
    let rest := (line.drop (str "Episode :").length).dropWhile Char.isWhitespace
    let ds := rest.takeWhile Char.isDigit
    if ds = [] then none
    else
      match rest.drop ds.length with
      | '/' :: r3 =>
        let ds2 := r3.takeWhile Char.isDigit
        if ds2 ≠ [] ∧ (r3.drop ds2.length).all Char.isWhitespace then some (ds, some ds2)
        else none
      | rest2 => if rest2.all Char.isWhitespace then some (ds, none) else none
  else none

/-- Per-line model of `^Saison :\s*([0-9]+)\s*$` (source line 373). -/
def saisonLineMatch (line : List Char) : Option (List Char) :=
  if (str "Saison :").isPrefixOf line then
    let rest := (line.drop (str "Saison :").length).dropWhile Char.isWhitespace
    let ds := rest.takeWhile Char.isDigit
    if ds ≠ [] ∧ (rest.drop ds.length).all Char.isWhitespace then some ds else none
  else none

/-- Source lines 368–387: the `episode-num` text.  `season` and `episode` are
Python ints, one less than the matched numbers (so they can be `-1`); the
optional total (group 2) is appended verbatim; the part component is the fixed
`0/1`. -/
def episodeNumOf (lines : List (List Char)) : Option (List Char) :=
  match lines.findSome? episodeLineMatch with
  | none => none
  | some (nDs, mOpt) =>
    let season : Int :=
      match lines.findSome? saisonLineMatch with
      | some sDs => (natOfDigits sDs : Int) - 1
      | none => 0
    let episode : Int := (natOfDigits nDs : Int) - 1
    some (intChars season ++ '.' :: intChars episode ++
      (match mOpt with
       | some m => '/' :: m
       | none => []) ++ str ".0/1")

/-- The season component the spec describes (parsed season − 1 when a
`Saison :` line exists, else 0); written from the spec's words for the C4
comparison. -/
def seasonValOf (lines : List (List Char)) : Int :=
  match lines.findSome? saisonLineMatch with
  | some sDs => (natOfDigits sDs : Int) - 1
  | none => 0

/-- Model of `re.search(r'^Genre :\s*(.+)\s*$', data[7], re.MULTILINE)`. -/
def genreOf (lines : List (List Char)) : Option (List Char) :=
  findLabel (str "Genre :") lines

/-- Program categories, source lines 342–358: the translated native category
when the translation is non-empty, then the native category itself (tagged
French), then the `Genre :` value (tagged French) when it differs from the
native category. -/
inductive Cat where
  | plain (t : List Char)
  | fr (t : List Char)
deriving DecidableEq

def categoriesOf (data5 : List Char) (lines : List (List Char)) : List Cat :=
  let cs : List Cat := []
  let c := translate_categories data5
  let cs := if c ≠ [] then cs ++ [Cat.plain c] else cs
  let cs := if data5 ≠ [] then cs ++ [Cat.fr data5] else cs
  match genreOf lines with
  | some g => if g ≠ data5 then cs ++ [Cat.fr g] else cs
  | none => cs

/-- Largest `i < n` with `p i`, scanning downwards (helper for the greedy
actor-regex model below). -/
def lastIdxSatisfying (p : Nat → Bool) : Nat → Option Nat
  | 0 => none
  | n + 1 => if p n then some n else lastIdxSatisfying p n

/-- Model of `re.search(r'(.*) \((.*)\)', actor)` (source line 304) on a
single-line entry.  Both `.*` are greedy and the pattern is unanchored, so a
match exists iff some position `i` carries `" ("` with some `')'` at `j ≥ i+2`;
the first group then ends at the *largest* such `i` (greedy first group), and
the second group ends just before the *last* `')'` of the entry (greedy second
group).  Entries cannot contain a newline (they come from a `(.+)` group of a
single line), so the `.`-excludes-newline caveat never bites. -/
def actorCredit (e : List Char) : List Char × Option (List Char) :=
  match lastIdxSatisfying (fun j => decide (e[j]? = some ')')) e.length with
  | none => (e, none)
  | some j =>
    match lastIdxSatisfying (fun i => decide (e[i]? = some ' ' ∧ e[i + 1]? = some '(')) (j - 1) with
    | none => (e, none)
    | some i => (e.take i, some ((e.drop (i + 2)).take (j - (i + 2))))

/-- The credit lists of source lines 290–333.  Each matched label's value is
split on `", "` outside parentheses; actors additionally get the role
annotation treatment. -/
structure Credits where
  directors : List (List Char)
  actors : List (List Char × Option (List Char))
  composers : List (List Char)
  presenters : List (List Char)
  guests : List (List Char)
deriving DecidableEq

/-- Split one credit value as the source does (separator `", "`, parentheses
as the nesting pair). -/
def creditSplit (v : List Char) : List (List Char) :=
  split_outside_delimiters v (str ", ") (str "(") (str ")")

def creditsOf (lines : List (List Char)) : Option Credits :=
  let dOpt := findLabel (str "Réalisateur :") lines
  let aOpt := findLabel (str "Acteurs :") lines
  let cOpt := findLabel (str "Musique :") lines
  let pOpt := findLabel (str "Présentateur :") lines
  let gOpt := findLabel (str "Invités :") lines
  if dOpt.isSome ∨ aOpt.isSome ∨ cOpt.isSome ∨ pOpt.isSome ∨ gOpt.isSome then
    some
      { directors := match dOpt with | some v => creditSplit v | none => []
        actors := match aOpt with | some v => (creditSplit v).map actorCredit | none => []
        composers := match cOpt with | some v => creditSplit v | none => []
        presenters := match pOpt with | some v => creditSplit v | none => []
        guests := match gOpt with | some v => creditSplit v | none => [] }
  else none

/-- The actor credits of a details block (the slice of `creditsOf` claim C5 is
about). -/
def actorsOf (lines : List (List Char)) : Option (List (List Char × Option (List Char))) :=
  (findLabel (str "Acteurs :") lines).map fun v => (creditSplit v).map actorCredit

/-- Model of `re.search(r'^En (16:9|4:3)', data[7], re.MULTILINE)` (source
line 391): first line starting with `En 16:9` or `En 4:3`; the pattern is not
anchored at the end, so a prefix match suffices. -/
def aspectOf (lines : List (List Char)) : Option (List Char) :=
  lines.findSome? fun l =>
    if (str "En 16:9").isPrefixOf l then some (str "16:9")
    else if (str "En 4:3").isPrefixOf l then some (str "4:3")
    else none

/-- Source lines 402–408: audio mode by priority (`En Dolby 5.1`, `En Dolby`,
`Stéréo`), all line-start-anchored prefix patterns; `''` when none match. -/
def stereoOf (lines : List (List Char)) : List Char :=
  if lines.any (fun l => (str "En Dolby 5.1").isPrefixOf l) then str "surround"
  else if lines.any (fun l => (str "En Dolby").isPrefixOf l) then str "dolby"
  else if lines.any (fun l => (str "Stéréo").isPrefixOf l) then str "stereo"
  else []

/-- Source lines 421–425: `^(Inédit|Première diffusion)`, capturing the
matched label itself (alternation tried left to right). -/
def premiereOf (lines : List (List Char)) : Option (List Char) :=
  lines.findSome? fun l =>
    if (str "Inédit").isPrefixOf l then some (str "Inédit")
    else if (str "Première diffusion").isPrefixOf l then some (str "Première diffusion")
    else none

/-- Source lines 428–432: subtitle availability (`VOST` → onscreen, else
`Sous-titré` → teletext, else none). -/
def subtitlesOf (lines : List (List Char)) : Option (List Char) :=
  if lines.any (fun l => (str "VOST").isPrefixOf l) then some (str "onscreen")
  else if lines.any (fun l => (str "Sous-titré").isPrefixOf l) then some (str "teletext")
  else none

/-- One or two leading ASCII digits and the remaining input, as the strptime
field regexes (`%d`, `%m`, `%H`, `%M`, `%S`) consume them.  Taking two digits
greedily agrees with CPython's backtracking alternations here because every
following literal (`:` or `/`) is a non-digit. -/
def parseDigits12 (l : List Char) : Option (Nat × List Char) :=
  match l with
  | d1 :: rest =>
    if d1.isDigit then
      match rest with
      | d2 :: rest2 =>
        if d2.isDigit then some ((d1.toNat - '0'.toNat) * 10 + (d2.toNat - '0'.toNat), rest2)
        else some (d1.toNat - '0'.toNat, rest)
      | [] => some (d1.toNat - '0'.toNat, [])
    else none
  | [] => none

/-- `datetime.strptime(s, '%H:%M:%S')` reduced to seconds since midnight
(source lines 243–248); `none` models the `ValueError` the whole record dies
of on malformed input.  The `datetime` constructor bounds the fields by
23/59/59. -/
def parseTime (s : List Char) : Option Nat :=
  match parseDigits12 s with
  | some (h, ':' :: r1) =>
    match parseDigits12 r1 with
    | some (m, ':' :: r2) =>
      match parseDigits12 r2 with
      | some (sec, []) =>
        if h ≤ 23 ∧ m ≤ 59 ∧ sec ≤ 59 then some (h * 3600 + m * 60 + sec) else none
      | _ => none
    | _ => none
  | _ => none

/-- Exactly four ASCII digits (strptime `%Y`). -/
def parseDigits4 (l : List Char) : Option (Nat × List Char) :=
  match l with
  | a :: b :: c :: d :: rest =>
    if a.isDigit ∧ b.isDigit ∧ c.isDigit ∧ d.isDigit then
      some (natOfDigits [a, b, c, d], rest)
    else none
  | _ => none

def isLeapYear (y : Nat) : Bool :=
  y % 4 == 0 && (y % 100 != 0 || y % 400 == 0)

def daysInMonth (y m : Nat) : Nat :=
  if m = 2 then (if isLeapYear y then 29 else 28)
  else if m = 4 ∨ m = 6 ∨ m = 9 ∨ m = 11 then 30
  else 31

/-- Day number of a civil date (proleptic Gregorian, days-from-civil
algorithm); only its strict monotonicity in the date matters here, and the
fact that the next calendar day is day `+ 1`. -/
def daysFromCivil (y m d : Nat) : Nat :=
  let yy := if m ≤ 2 then y - 1 else y
  let era := yy / 400
  let yoe := yy % 400
  let mp := (m + 9) % 12
  let doy := (153 * mp + 2) / 5 + d - 1
  let doe := yoe * 365 + yoe / 4 - yoe / 100 + doy
  era * 146097 + doe

/-- `datetime.strptime(s, '%d/%m/%Y')` reduced to a day number; `none` models
the `ValueError` (the `datetime` constructor validates ranges, year ≥ 1 and
day against the month's length). -/
def parseDate (s : List Char) : Option Nat :=
  match parseDigits12 s with
  | some (d, '/' :: r1) =>
    match parseDigits12 r1 with
    | some (m, '/' :: r2) =>
      match parseDigits4 r2 with
      | some (y, []) =>
        if 1 ≤ y ∧ 1 ≤ m ∧ m ≤ 12 ∧ 1 ≤ d ∧ d ≤ daysInMonth y m then
          some (daysFromCivil y m d)
        else none
      | _ => none
    | _ => none
  | _ => none

/-- Source lines 242–250.  `france_tz.localize` turns each naive wall-clock
value into an aware datetime by attaching the UTC offset (in seconds) that the
Europe/Paris tz database assigns to that wall-clock value (pytz `localize`
with its default `is_dst=False` disambiguation for ambiguous and nonexistent
times).  Aware datetimes compare as UTC instants — wall-clock seconds minus
the attached offset — so `start > stop` at line 249 compares the two
localized instants.  `stop += timedelta(days=1)` adds one day to the naive
fields and keeps the already-attached offset, i.e. it adds exactly 86400
seconds to the stop instant.  The tz database itself is external data the
program reads through pytz; the model takes the two attached offsets (`off3`
for the start time, `off4` for the stop time) as inputs. -/
def startStop (day t3 t4 : Nat) (off3 off4 : Int) : Int × Int :=
  let start : Int := (day : Int) * 86400 + t3 - off3
  let stop : Int := (day : Int) * 86400 + t4 - off4
  if start > stop then (start, stop + 86400) else (start, stop)

/-- The start/stop computation on the raw string fields (`data[12]`,
`data[3]`, `data[4]`); `none` models the `strptime` failure.  `off day t` is
the UTC offset the Europe/Paris tz database assigns to the wall-clock value
`t` seconds into day `day` (see `startStop`); it is a function of the
wall-clock value, so equal wall-clock values always receive equal offsets. -/
def startStopOf (off : Nat → Nat → Int) (ds t3s t4s : List Char) : Option (Int × Int) :=
  match parseDate ds, parseTime t3s, parseTime t4s with
  | some day, some t3, some t4 => some (startStop day t3 t4 (off day t3) (off day t4))
  | _, _, _ => none

/-- One raw record, restricted to the stripped fields `write_xmltv_data`
reads (source line 231 strips every field; field 9 is never read).  The
details block `data7` is the list of lines of field 7 (all its patterns are
`re.MULTILINE` line-anchored). -/
structure Rec where
  data0 : List Char := []
  data1 : List Char := []
  data2 : List Char := []
  data3 : List Char := []
  data4 : List Char := []
  data5 : List Char := []
  data6 : List Char := []
  data7 : List (List Char) := []
  data8 : List Char := []
  data10 : List Char := []
  data11 : List Char := []
  data12 : List Char := []
deriving DecidableEq

/-- The `programme` element contents built at source lines 252–462.  The
`video` element (lines 390–399) is built but never appended to the programme,
so it is no part of the output; its aspect lookup still decides whether the
record survives at all (see `buildProgram`).  The icon URL (line 361) is the
fixed template instantiated with the native channel id and the start instant;
the record keeps the channel id component. -/
structure Program where
  channel : List Char
  start : Int
  stop : Int
  showview : Option (List Char)
  title : List Char
  subtitle : Option (List Char)
  desc : Option (List Char)
  credits : Option Credits
  date : Option (List Char)
  categories : List Cat
  iconChannel : List Char
  episodeNum : Option (List Char)
  stereo : Option (List Char)
  previouslyShown : Bool
  premiere : Option (List Char)
  subtitles : Option (List Char)
  rating : Option (List Char)
  starRating : Option (List Char)
  review : Option (List Char)
deriving DecidableEq

/-- The per-record mapping of `write_xmltv_data` (source lines 242–462),
with `off` the Europe/Paris offset assignment (see `startStop`).
`none` models the two ways a record kills the whole run: a `strptime`
`ValueError` on the date/time fields (lines 243–248), and the unguarded
`m.group(1)` at line 393 raising `AttributeError` when no `En 16:9` / `En 4:3`
line exists — that lookup is the only details-block pattern without an
`if m:` guard. -/
def buildProgram (off : Nat → Nat → Int) (r : Rec) : Option Program :=
  match startStopOf off r.data12 r.data3 r.data4 with
  | none => none
  | some startstop =>
    match aspectOf r.data7 with
    | none => none
    | some _ =>
      some
        { channel := telerama_to_xmltv_id r.data0
          start := startstop.1
          stop := startstop.2
          showview := findLabel (str "Showview :") r.data7
          title := r.data2
          subtitle := findLabel (str "Sous-titre :") r.data7
          desc := if r.data6 ≠ [] then some r.data6 else none
          credits := creditsOf r.data7
          date := findLabel (str "Année :") r.data7
          categories := categoriesOf r.data5 r.data7
          iconChannel := r.data0
          episodeNum := episodeNumOf r.data7
          stereo := if stereoOf r.data7 ≠ [] then some (stereoOf r.data7) else none
          previouslyShown := r.data7.any (fun l => (str "Rediffusion").isPrefixOf l)
          premiere := premiereOf r.data7
          subtitles := subtitlesOf r.data7
          rating := if r.data8 ≠ str "0" then some r.data8 else none
          starRating :=
            if r.data10 = str "1" ∨ r.data10 = str "2" ∨ r.data10 = str "3" then
              some (r.data10 ++ str "/3")
            else none
          review := if r.data11 ≠ [] then some r.data11 else none }

/-- A child of the output root: a `channel` element (id and display name) or a
`programme` element (abstracted by its source record). -/
inductive RootElem where
  | chan (id nm : List Char)
  | prog (r : Rec)
deriving DecidableEq

/-- `root.find('channel[@id="..."]') is not None` (source line 235). -/
def hasChan (doc : List RootElem) (id : List Char) : Bool :=
  doc.any fun e =>
    match e with
    | RootElem.chan i _ => i == id
    | RootElem.prog _ => false

/-- Processing one record against the root's child list (source lines
233–240 and 464): a fresh channel element is `insert(0, ...)`-ed at the very
front, the programme element is appended at the very end. -/
def addRecord (doc : List RootElem) (r : Rec) : List RootElem :=
  let cid := telerama_to_xmltv_id r.data0
  let doc2 := if hasChan doc cid then doc else RootElem.chan cid r.data1 :: doc
  doc2 ++ [RootElem.prog r]

/-- The root's children after processing all records in feed order. -/
def buildDoc (rs : List Rec) : List RootElem :=
  rs.foldl addRecord []

/-- The channel ids already declared in a child list. -/
def chanIds (doc : List RootElem) : List (List Char) :=
  doc.filterMap fun e =>
    match e with
    | RootElem.chan i _ => some i
    | RootElem.prog _ => none

/-- Modelled from the spec: channels "in first-seen order" — the (id, display
name) pairs of the records, keeping only the first record of each id, in feed
order.  This is the order the spec asserts and the comparison point for C7. -/
def idsContain (seen : List (List Char)) (id : List Char) : Bool :=
  seen.any fun i => i == id

def firstSeen (seen : List (List Char)) : List Rec → List (List Char × List Char)
  | [] => []
  | r :: rs =>
    let cid := telerama_to_xmltv_id r.data0
    if idsContain seen cid then firstSeen seen rs
    else (cid, r.data1) :: firstSeen (cid :: seen) rs

/-! ### Splitter lemmas (claims C3 and C10) -/

theorem splitAux_ne_nil (sep d1 d2 : List Char) :
    ∀ (fuel : Nat) (l tmp : List Char) (level : Int),
      splitAux sep d1 d2 fuel l tmp level ≠ [] := by
  intro fuel
  induction fuel with
  | zero =>
    intro l tmp level
    cases l <;> simp [splitAux]
  | succ n ih =>
    intro l tmp level
    cases l with
    | nil => simp [splitAux]
    | cons c rest =>
      rw [splitAux]
      split
      · simp
      · exact ih _ _ _

theorem joinSep_cons (sep x : List Char) (ys : List (List Char)) (h : ys ≠ []) :
    joinSep sep (x :: ys) = x ++ sep ++ joinSep sep ys := by
  cases ys with
  | nil => exact absurd rfl h
  | cons y ys' => rfl

theorem joinSep_splitAux (sep d1 d2 : List Char) :
    ∀ (fuel : Nat) (l tmp : List Char) (level : Int), l.length ≤ fuel →
      joinSep sep (splitAux sep d1 d2 fuel l tmp level) = tmp ++ l := by
  intro fuel
  induction fuel with
  | zero =>
    intro l tmp level h
    cases l with
    | nil => simp [splitAux, joinSep]
    | cons c rest => simp at h
  | succ n ih =>
    intro l tmp level h
    cases l with
    | nil => simp [splitAux, joinSep]
    | cons c rest =>
      rw [splitAux]
      split
      case isTrue hc =>
        obtain ⟨hne, hpre, -⟩ := hc
        obtain ⟨t, ht⟩ := List.isPrefixOf_iff_prefix.mp hpre
        rw [joinSep_cons _ _ _ (splitAux_ne_nil sep d1 d2 _ _ _ _)]
        have hdrop : (c :: rest).drop sep.length = t := by
          rw [← ht, List.drop_left]
        have hlen : ((c :: rest).drop sep.length).length ≤ n := by
          have hs : 1 ≤ sep.length := List.length_pos.mpr hne
          simp only [List.length_drop]
          simp only [List.length_cons] at h ⊢
          omega
        rw [ih _ _ _ hlen, hdrop, List.nil_append, List.append_assoc, ht]
      case isFalse hc =>
        rw [ih _ _ _ (by simpa using Nat.le_of_succ_le_succ (by simpa using h))]
        simp

theorem splitAux_length_eq (sep d1 d2 : List Char) :
    ∀ (fuel : Nat) (l tmp : List Char) (level : Int),
      (splitAux sep d1 d2 fuel l tmp level).length =
        countTopSepsAux sep d1 d2 fuel l level + 1 := by
  intro fuel
  induction fuel with
  | zero =>
    intro l tmp level
    cases l <;> simp [splitAux, countTopSepsAux]
  | succ n ih =>
    intro l tmp level
    cases l with
    | nil => simp [splitAux, countTopSepsAux]
    | cons c rest =>
      rw [splitAux, countTopSepsAux]
      split
      case isTrue hc =>
        simp only [List.length_cons, ih]
      case isFalse hc =>
        exact ih _ _ _

/-- C3 — For every input string (with the program's non-empty separator; the
Python loop does not terminate on an empty one), the nested-delimiter split
yields one more segment than the number of separator occurrences seen at
nesting level zero — hence at least one segment, the final one always
included, and separator occurrences at positive nesting level (between an
open delimiter and its matching close) never cause a split. -/
theorem c3_split_segment_count (s sep d1 d2 : List Char) (_hsep : sep ≠ []) :
    (split_outside_delimiters s sep d1 d2).length = countTopSeps s sep d1 d2 + 1 ∧
      split_outside_delimiters s sep d1 d2 ≠ [] := by
  refine ⟨splitAux_length_eq sep d1 d2 s.length s [] 0, splitAux_ne_nil sep d1 d2 _ _ _ _⟩

/-- Witness for C3 at the program's separator/delimiters and a concrete input
(`"a, (b, c), d"`, which has two level-zero separators). -/
theorem c3_witness :
    (str ", ") ≠ [] ∧
      ((split_outside_delimiters (str "a, (b, c), d") (str ", ") (str "(") (str ")")).length =
          countTopSeps (str "a, (b, c), d") (str ", ") (str "(") (str ")") + 1 ∧
        split_outside_delimiters (str "a, (b, c), d") (str ", ") (str "(") (str ")") ≠ []) :=
  ⟨by decide, c3_split_segment_count (str "a, (b, c), d") (str ", ") (str "(") (str ")") (by decide)⟩

/-- C10 — the split is lossless for every input string, balanced or not:
joining the returned segments with the separator reproduces the input
exactly (for the program's non-empty separator). -/
theorem c10_join_split (s sep d1 d2 : List Char) (_hsep : sep ≠ []) :
    joinSep sep (split_outside_delimiters s sep d1 d2) = s := by
  have h := joinSep_splitAux sep d1 d2 s.length s [] 0 (Nat.le_refl _)
  simpa [split_outside_delimiters] using h

/-- Witness for C10 on an unbalanced input. -/
theorem c10_witness :
    (str ", ") ≠ [] ∧
      joinSep (str ", ") (split_outside_delimiters (str "a)b, c, ((d") (str ", ") (str "(") (str ")")) =
        str "a)b, c, ((d" :=
  ⟨by decide, c10_join_split (str "a)b, c, ((d") (str ", ") (str "(") (str ")") (by decide)⟩

/-! ### Episode numbering (claim C4) -/

theorem findSome?_isSome {α β : Type} (f : α → Option β) (l : List α) :
    (l.findSome? f).isSome = true ↔ ∃ x ∈ l, (f x).isSome = true := by
  induction l with
  | nil => simp [List.findSome?]
  | cons a l ih =>
    rw [List.findSome?]
    cases h : f a with
    | none => simp [h, ih]
    | some b => simp [h]

/-- C4 — the episode-numbering string is emitted exactly when an
`Episode : N` / `Episode : N/M` line matches, its text is
`(season−1 or 0) "." (N−1) ["/" M] ".0/1"`, and the spec's concrete example
produces `"1.2/10.0/1"`. -/
theorem c4_episode_numbering :
    episodeNumOf [str "Episode : 3/10", str "Saison : 2"] = some (str "1.2/10.0/1") ∧
      (∀ lines : List (List Char),
        (episodeNumOf lines).isSome = true ↔ ∃ l ∈ lines, (episodeLineMatch l).isSome = true) ∧
      ∀ (lines : List (List Char)) (n : List Char) (m : Option (List Char)),
        lines.findSome? episodeLineMatch = some (n, m) →
          episodeNumOf lines =
            some (intChars (seasonValOf lines) ++ '.' :: intChars ((natOfDigits n : Int) - 1) ++
              (match m with
               | some t => '/' :: t
               | none => []) ++ str ".0/1") := by
  refine ⟨by decide, ?_, ?_⟩
  · intro lines
    rw [← findSome?_isSome episodeLineMatch lines]
    unfold episodeNumOf
    cases lines.findSome? episodeLineMatch with
    | none => simp
    | some p => cases p; simp
  · intro lines n m h
    unfold episodeNumOf seasonValOf
    rw [h]

/-- Witness for C4's conditional part at a concrete details block. -/
theorem c4_witness :
    ([str "Episode : 5", str "Saison : 2"].findSome? episodeLineMatch = some (str "5", none)) ∧
      episodeNumOf [str "Episode : 5", str "Saison : 2"] =
        some (intChars (seasonValOf [str "Episode : 5", str "Saison : 2"]) ++
          '.' :: intChars ((natOfDigits (str "5") : Int) - 1) ++ [] ++ str ".0/1") :=
  ⟨by decide,
    c4_episode_numbering.2.2 [str "Episode : 5", str "Saison : 2"] (str "5") none (by decide)⟩

/-! ### Actor role annotation (claim C5) -/

theorem lastIdxSatisfying_eq_some (p : Nat → Bool) :
    ∀ n j, lastIdxSatisfying p n = some j ↔
      (j < n ∧ p j = true ∧ ∀ m, j < m → m < n → p m = false) := by
  intro n
  induction n with
  | zero => intro j; simp [lastIdxSatisfying]
  | succ k ih =>
    intro j
    rw [lastIdxSatisfying]
    by_cases hp : p k = true
    · rw [if_pos hp]
      constructor
      · intro h
        obtain rfl : k = j := by injection h
        exact ⟨Nat.lt_succ_self k, hp, fun m h1 h2 => absurd (And.intro h1 h2) (by omega)⟩
      · rintro ⟨hjk, hpj, hmax⟩
        rcases Nat.lt_succ_iff_lt_or_eq.mp hjk with hlt | rfl
        · exact absurd hp (by simpa using hmax k hlt (Nat.lt_succ_self k))
        · rfl
    · rw [if_neg hp]
      rw [ih j]
      constructor
      · rintro ⟨hjk, hpj, hmax⟩
        refine ⟨Nat.lt_succ_of_lt hjk, hpj, fun m h1 h2 => ?_⟩
        rcases Nat.lt_succ_iff_lt_or_eq.mp h2 with hlt | rfl
        · exact hmax m h1 hlt
        · exact Bool.eq_false_iff.mpr hp
      · rintro ⟨hjk, hpj, hmax⟩
        have hne : j ≠ k := fun h => hp (h ▸ hpj)
        have hjk' : j < k := by omega
        exact ⟨hjk', hpj, fun m h1 h2 => hmax m h1 (Nat.lt_succ_of_lt h2)⟩

theorem lastIdxSatisfying_eq_none (p : Nat → Bool) :
    ∀ n, lastIdxSatisfying p n = none ↔ ∀ m, m < n → p m = false := by
  intro n
  induction n with
  | zero => simp [lastIdxSatisfying]
  | succ k ih =>
    rw [lastIdxSatisfying]
    by_cases hp : p k = true
    · rw [if_pos hp]
      simp only [reduceCtorEq, false_iff]
      intro h
      exact absurd hp (by simpa using h k (Nat.lt_succ_self k))
    · rw [if_neg hp, ih]
      constructor
      · intro h m hm
        rcases Nat.lt_succ_iff_lt_or_eq.mp hm with hlt | rfl
        · exact h m hlt
        · exact Bool.eq_false_iff.mpr hp
      · exact fun h m hm => h m (Nat.lt_succ_of_lt hm)

/-- C5, amended — the actor regex `(.*) \((.*)\)` is greedy and unanchored:
a role is extracted whenever the entry contains `" ("` with a later `')'`
(not only for a *trailing* annotation); the name then stops at the last such
`" ("`, the role ends at the last `')'` of the whole entry, and anything after
that `')'` is silently dropped.  An entry without any such occurrence is kept
whole with no role.  The spec's own example still behaves as stated. -/
theorem c5_actor_credit_amended :
    actorsOf [str "Acteurs : Jean Dupont (Paul), Marie Curie"] =
        some [(str "Jean Dupont", some (str "Paul")), (str "Marie Curie", none)] ∧
      (∀ e : List Char,
        (∀ i, i < e.length → ∀ j, j < e.length →
          ¬(e[i]? = some ' ' ∧ e[i + 1]? = some '(' ∧ e[j]? = some ')' ∧ i + 2 ≤ j)) →
        actorCredit e = (e, none)) ∧
      ∀ (e : List Char) (i j : Nat),
        e[i]? = some ' ' → e[i + 1]? = some '(' → e[j]? = some ')' → i + 2 ≤ j →
        (∀ j', j < j' → j' < e.length → e[j']? ≠ some ')') →
        (∀ i', i < i' → i' + 2 ≤ j → ¬(e[i']? = some ' ' ∧ e[i' + 1]? = some '(')) →
        actorCredit e = (e.take i, some ((e.drop (i + 2)).take (j - (i + 2)))) := by
  refine ⟨by decide, ?_, ?_⟩
  · intro e he
    cases h1 : lastIdxSatisfying (fun j => decide (e[j]? = some ')')) e.length with
    | none => simp only [actorCredit, h1]
    | some j =>
      obtain ⟨hj, hpj, -⟩ := (lastIdxSatisfying_eq_some _ _ _).mp h1
      have hj' : e[j]? = some ')' := of_decide_eq_true hpj
      cases h2 : lastIdxSatisfying
          (fun i => decide (e[i]? = some ' ' ∧ e[i + 1]? = some '(')) (j - 1) with
      | none => simp only [actorCredit, h1, h2]
      | some i =>
        obtain ⟨hi, hpi, -⟩ := (lastIdxSatisfying_eq_some _ _ _).mp h2
        obtain ⟨hsp, hop⟩ := of_decide_eq_true hpi
        have hilen : i < e.length := (List.getElem?_eq_some_iff.mp hsp).1
        exact absurd ⟨hsp, hop, hj', by omega⟩ (he i hilen j hj)
  · intro e i j hsp hop hcl hij hjmax himax
    have hjlen : j < e.length := (List.getElem?_eq_some_iff.mp hcl).1
    have h1 : lastIdxSatisfying (fun k => decide (e[k]? = some ')')) e.length = some j := by
      refine (lastIdxSatisfying_eq_some _ _ _).mpr ⟨hjlen, decide_eq_true hcl, ?_⟩
      intro m hm1 hm2
      exact decide_eq_false (hjmax m hm1 hm2)
    have h2 : lastIdxSatisfying
        (fun k => decide (e[k]? = some ' ' ∧ e[k + 1]? = some '(')) (j - 1) = some i := by
      refine (lastIdxSatisfying_eq_some _ _ _).mpr
        ⟨by omega, decide_eq_true ⟨hsp, hop⟩, ?_⟩
      intro m hm1 hm2
      exact decide_eq_false (himax m hm1 (by omega))
    simp only [actorCredit, h1, h2]

/-- Counterexample to C5 as stated: the entry `"Jean Dupont (Paul) Jr"` has no
*trailing* parenthesized annotation, yet the mapper still extracts the role
`"Paul"` and silently drops the trailing `" Jr"` instead of keeping the whole
entry as the name with no role. -/
theorem c5_counterexample :
    actorsOf [str "Acteurs : Jean Dupont (Paul) Jr"] =
        some [(str "Jean Dupont", some (str "Paul"))] ∧
      (str "Jean Dupont", some (str "Paul")) ≠
        (str "Jean Dupont (Paul) Jr", (none : Option (List Char))) := by
  constructor
  · decide
  · decide

/-- Witness for C5's conditional parts at concrete entries. -/
theorem c5_witness :
    actorCredit (str "Marie Curie") = (str "Marie Curie", none) ∧
      actorCredit (str "a (b)") =
        ((str "a (b)").take 1, some (((str "a (b)").drop 3).take 1)) := by
  constructor
  · exact c5_actor_credit_amended.2.1 (str "Marie Curie") (by decide)
  · refine c5_actor_credit_amended.2.2 (str "a (b)") 1 4 (by decide) (by decide) (by decide)
      (by decide) ?_ ?_
    · intro j' h1 h2
      exact absurd (by decide : (str "a (b)").length = 5) (by omega)
    · intro i' h1 h2 h
      have hi2 : i' = 2 := by omega
      subst hi2
      exact absurd h.1 (by decide)

/-! ### Categories (claim C6) -/

/-- C6 — the emitted categories are exactly: the non-empty translation of the
native category, then the non-empty native category tagged French, then the
`Genre :` value tagged French only when it differs from the native category;
in particular when the genre equals the native category the French-tagged
native category appears exactly once (no duplication). -/
theorem c6_categories (data5 : List Char) (lines : List (List Char)) :
    categoriesOf data5 lines =
        (if translate_categories data5 ≠ [] then [Cat.plain (translate_categories data5)] else []) ++
          (if data5 ≠ [] then [Cat.fr data5] else []) ++
          (match genreOf lines with
           | some g => if g ≠ data5 then [Cat.fr g] else []
           | none => []) ∧
      (genreOf lines = some data5 →
        (categoriesOf data5 lines).count (Cat.fr data5) = if data5 ≠ [] then 1 else 0) := by
  constructor
  · unfold categoriesOf
    cases genreOf lines with
    | none =>
      by_cases h1 : translate_categories data5 ≠ [] <;>
        by_cases h2 : data5 ≠ [] <;>
        simp [h1, h2]
    | some g =>
      by_cases h1 : translate_categories data5 ≠ [] <;>
        by_cases h2 : data5 ≠ [] <;>
        by_cases h3 : g ≠ data5 <;>
        simp [h1, h2, h3]
  · intro hg
    unfold categoriesOf
    rw [hg]
    by_cases h1 : translate_categories data5 ≠ [] <;>
      by_cases h2 : data5 ≠ [] <;>
      simp [h1, h2, List.count_cons, List.count_append]

/-- Witness for C6 where the genre equals the native category. -/
theorem c6_witness :
    categoriesOf (str "Série") [str "Genre : Série"] =
        (if translate_categories (str "Série") ≠ [] then
          [Cat.plain (translate_categories (str "Série"))] else []) ++
          (if (str "Série") ≠ [] then [Cat.fr (str "Série")] else []) ++
          (match genreOf [str "Genre : Série"] with
           | some g => if g ≠ str "Série" then [Cat.fr g] else []
           | none => []) ∧
      (categoriesOf (str "Série") [str "Genre : Série"]).count (Cat.fr (str "Série")) =
        if (str "Série") ≠ [] then 1 else 0 :=
  ⟨(c6_categories (str "Série") [str "Genre : Série"]).1,
    (c6_categories (str "Série") [str "Genre : Série"]).2 (by decide)⟩

/-! ### Start/stop timing (claims C2) -/

/-- A time parsed by `%H:%M:%S` is below 86400 seconds. -/
theorem parseTime_lt {s : List Char} {t : Nat} (h : parseTime s = some t) : t < 86400 := by
  unfold parseTime at h
  split at h
  · split at h
    · split at h
      · split at h
        · rename_i hcond
          obtain ⟨hh, hm, hs⟩ := hcond
          injection h with he
          omega
        · exact absurd h (by simp)
      · exact absurd h (by simp)
    · exact absurd h (by simp)
  · exact absurd h (by simp)

/-- Counterexample to C2 as stated: a record whose start and stop
times-of-day are both `12:00:00` on `01/01/2020`.  Both fields carry the same
wall-clock value, so localization attaches the same UTC offset to both (on
2020-01-01 the Europe/Paris database assigns CET, +3600 s, to every time of
the day, which is the assignment used here) and the two localized instants
are equal.  "stop ≤ start" therefore holds, yet the code (`if start > stop`,
source line 249) adds no day, and the emitted programme has stop = start,
violating the claimed invariant `stop > start`. -/
theorem c2_counterexample :
    startStopOf (fun _ _ => (3600 : Int)) (str "01/01/2020") (str "12:00:00") (str "12:00:00") =
      some ((daysFromCivil 2020 1 1 : Int) * 86400 + 43200 - 3600,
        (daysFromCivil 2020 1 1 : Int) * 86400 + 43200 - 3600) := by
  decide

/-- C2, amended — start and stop are the Europe/Paris-localized instants of
the field-12 date combined with the field-3 and field-4 times, and one
calendar day (86400 s, the offset being kept) is added to the stop instant
exactly when the stop *instant* is strictly below the start *instant* (the
source tests `start > stop` on aware datetimes).  On every record whose two
wall-clock values receive the same UTC offset — every date without a DST
transition between the two times — this means: a day is added iff the stop
time-of-day is strictly less than the start time-of-day, the emitted
programme satisfies `stop ≥ start`, and `stop > start` iff the two
times-of-day differ; at equal times the emitted programme has stop = start,
so the claimed strict invariant fails.  (On the two transition dates a year,
times on opposite sides of the transition receive different offsets and the
day-rollover decision follows the instants, not the times-of-day.) -/
theorem c2_start_stop_amended (off : Nat → Nat → Int) (ds t3s t4s : List Char)
    (day t3 t4 : Nat)
    (hd : parseDate ds = some day) (h3 : parseTime t3s = some t3)
    (h4 : parseTime t4s = some t4) (hoff : off day t3 = off day t4) :
    startStopOf off ds t3s t4s = some (startStop day t3 t4 (off day t3) (off day t4)) ∧
      (startStop day t3 t4 (off day t3) (off day t4)).1 =
        (day : Int) * 86400 + t3 - off day t3 ∧
      (t4 < t3 → (startStop day t3 t4 (off day t3) (off day t4)).2 =
        (day : Int) * 86400 + t4 - off day t4 + 86400) ∧
      (t3 ≤ t4 → (startStop day t3 t4 (off day t3) (off day t4)).2 =
        (day : Int) * 86400 + t4 - off day t4) ∧
      (startStop day t3 t4 (off day t3) (off day t4)).1 ≤
        (startStop day t3 t4 (off day t3) (off day t4)).2 ∧
      ((startStop day t3 t4 (off day t3) (off day t4)).1 <
          (startStop day t3 t4 (off day t3) (off day t4)).2 ↔ t3 ≠ t4) := by
  have ht3 : t3 < 86400 := parseTime_lt h3
  refine ⟨by unfold startStopOf; rw [hd, h3, h4], ?_⟩
  unfold startStop
  rw [hoff]
  by_cases h : ((day : Int) * 86400 + t3 - off day t4) > ((day : Int) * 86400 + t4 - off day t4) <;>
    simp [h] <;> omega

/-- Witness for C2 at the spec's own midnight-crossing example
(`23:30:00` → `00:45:00` on `01/03/2024`, a date on which Europe/Paris
assigns CET, +3600 s, to every time of day). -/
theorem c2_witness :
    startStopOf (fun _ _ => (3600 : Int)) (str "01/03/2024") (str "23:30:00") (str "00:45:00") =
        some (startStop (daysFromCivil 2024 3 1) 84600 2700 3600 3600) ∧
      (startStop (daysFromCivil 2024 3 1) 84600 2700 3600 3600).1 =
        (daysFromCivil 2024 3 1 : Int) * 86400 + 84600 - 3600 ∧
      (2700 < 84600 → (startStop (daysFromCivil 2024 3 1) 84600 2700 3600 3600).2 =
        (daysFromCivil 2024 3 1 : Int) * 86400 + 2700 - 3600 + 86400) ∧
      (84600 ≤ 2700 → (startStop (daysFromCivil 2024 3 1) 84600 2700 3600 3600).2 =
        (daysFromCivil 2024 3 1 : Int) * 86400 + 2700 - 3600) ∧
      (startStop (daysFromCivil 2024 3 1) 84600 2700 3600 3600).1 ≤
        (startStop (daysFromCivil 2024 3 1) 84600 2700 3600 3600).2 ∧
      ((startStop (daysFromCivil 2024 3 1) 84600 2700 3600 3600).1 <
          (startStop (daysFromCivil 2024 3 1) 84600 2700 3600 3600).2 ↔ (84600 : Nat) ≠ 2700) :=
  c2_start_stop_amended (fun _ _ => (3600 : Int)) (str "01/03/2024") (str "23:30:00")
    (str "00:45:00") (daysFromCivil 2024 3 1) 84600 2700 (by decide) (by decide) (by decide) rfl

/-! ### The unguarded aspect-ratio lookup (claim C1) -/

/-- C1 — the code contradicts the spec here: for a record whose details block
matches no aspect-ratio line, `m.group(1)` at source line 393 is evaluated on
`m = None` (it is the only details-block lookup without an `if m:` guard), so
the record is *not* emitted with the attribute omitted — the whole run dies
with an `AttributeError`, which the model renders as `buildProgram = none`.
Adding the aspect line (second conjunct) is enough to make the same record
succeed, every other optional pattern still unmatched and merely omitted.
Both facts hold for every UTC-offset assignment `off`, the crash being
independent of the timezone data. -/
theorem c1_aspect_crash (off : Nat → Nat → Int) :
    buildProgram off
        { data2 := str "Film sans format", data3 := str "20:00:00", data4 := str "21:00:00",
          data7 := [str "Sous-titre : Pilote"], data12 := str "01/03/2024" } = none ∧
      (buildProgram off
        { data2 := str "Film sans format", data3 := str "20:00:00", data4 := str "21:00:00",
          data7 := [str "Sous-titre : Pilote", str "En 16:9"],
          data12 := str "01/03/2024" }).isSome = true := by
  have hd : parseDate (str "01/03/2024") = some (daysFromCivil 2024 3 1) := by decide
  have h3 : parseTime (str "20:00:00") = some 72000 := by decide
  have h4 : parseTime (str "21:00:00") = some 75600 := by decide
  have ha1 : aspectOf [str "Sous-titre : Pilote"] = none := by decide
  have ha2 : aspectOf [str "Sous-titre : Pilote", str "En 16:9"] = some (str "16:9") := by
    decide
  constructor
  · simp [buildProgram, startStopOf, hd, h3, h4, ha1]
  · simp [buildProgram, startStopOf, hd, h3, h4, ha2]

/-! ### Document layout and channel deduplication (claims C7 and C8) -/

theorem hasChan_eq_idsContain (doc : List RootElem) (id : List Char) :
    hasChan doc id = idsContain (chanIds doc) id := by
  induction doc with
  | nil => rfl
  | cons e d ih =>
    cases e with
    | chan i nm =>
      show (i == id || hasChan d id) = (i == id || idsContain (chanIds d) id)
      rw [ih]
    | prog r =>
      show (false || hasChan d id) = idsContain (chanIds d) id
      rw [ih, Bool.false_or]

theorem foldl_addRecord_shape (rs : List Rec) :
    ∀ D : List RootElem,
      List.foldl addRecord D rs =
        ((firstSeen (chanIds D) rs).reverse.map fun p => RootElem.chan p.1 p.2) ++ D ++
          rs.map RootElem.prog := by
  induction rs with
  | nil => intro D; simp [firstSeen]
  | cons r rs ih =>
    intro D
    rw [List.foldl_cons]
    by_cases h : hasChan D (telerama_to_xmltv_id r.data0) = true
    · have haddr : addRecord D r = D ++ [RootElem.prog r] := by
        simp only [addRecord]
        rw [if_pos h]
      have hcont : idsContain (chanIds D) (telerama_to_xmltv_id r.data0) = true := by
        rw [← hasChan_eq_idsContain]; exact h
      have hfs : firstSeen (chanIds D) (r :: rs) = firstSeen (chanIds D) rs := by
        simp only [firstSeen]
        rw [if_pos hcont]
      have hc : chanIds (D ++ [RootElem.prog r]) = chanIds D := by
        simp [chanIds]
      rw [haddr, ih, hc, hfs]
      simp
    · have haddr : addRecord D r =
          RootElem.chan (telerama_to_xmltv_id r.data0) r.data1 :: D ++ [RootElem.prog r] := by
        simp only [addRecord]
        rw [if_neg h]
      have hcont : idsContain (chanIds D) (telerama_to_xmltv_id r.data0) = false := by
        rw [← hasChan_eq_idsContain]; exact Bool.eq_false_iff.mpr h
      have hfs : firstSeen (chanIds D) (r :: rs) =
          (telerama_to_xmltv_id r.data0, r.data1) ::
            firstSeen (telerama_to_xmltv_id r.data0 :: chanIds D) rs := by
        simp only [firstSeen]
        rw [if_neg (by simp [hcont])]
      have hc : chanIds (RootElem.chan (telerama_to_xmltv_id r.data0) r.data1 :: D ++
          [RootElem.prog r]) = telerama_to_xmltv_id r.data0 :: chanIds D := by
        simp [chanIds]
      rw [haddr, ih, hc, hfs]
      simp

/-- C7, amended — in the serialized document every channel element precedes
every programme element and the programme elements keep insertion order, but
the channel elements appear in *reverse* first-seen order (each new channel is
`insert(0, ...)`-ed at the front of the root, source line 240). -/
theorem c7_document_order_amended (rs : List Rec) :
    buildDoc rs =
      ((firstSeen [] rs).reverse.map fun p => RootElem.chan p.1 p.2) ++
        rs.map RootElem.prog := by
  have h := foldl_addRecord_shape rs []
  simpa [buildDoc, chanIds] using h

/-- Counterexample to C7 as stated: with two records on fresh channels `"1"`
then `"2"`, the document starts with channel `"2"` — the channels are not in
first-seen order. -/
theorem c7_counterexample :
    buildDoc [{ data0 := str "1", data1 := str "A" }, { data0 := str "2", data1 := str "B" }] =
        [RootElem.chan (str "2.tv.telerama.fr") (str "B"),
          RootElem.chan (str "1.tv.telerama.fr") (str "A"),
          RootElem.prog { data0 := str "1", data1 := str "A" },
          RootElem.prog { data0 := str "2", data1 := str "B" }] ∧
      buildDoc [{ data0 := str "1", data1 := str "A" }, { data0 := str "2", data1 := str "B" }] ≠
        ((firstSeen [] [{ data0 := str "1", data1 := str "A" },
            { data0 := str "2", data1 := str "B" }]).map fun p => RootElem.chan p.1 p.2) ++
          ([{ data0 := str "1", data1 := str "A" },
            { data0 := str "2", data1 := str "B" }] : List Rec).map RootElem.prog := by
  constructor
  · decide
  · decide

theorem firstSeen_mem (rs : List Rec) :
    ∀ (seen : List (List Char)) (p : List Char × List Char), p ∈ firstSeen seen rs →
      idsContain seen p.1 = false ∧
        ∃ r, rs.find? (fun r => telerama_to_xmltv_id r.data0 == p.1) = some r ∧
          p.2 = r.data1 := by
  induction rs with
  | nil => intro seen p hp; simp [firstSeen] at hp
  | cons r rs ih =>
    intro seen p hp
    simp only [firstSeen] at hp
    by_cases hc : idsContain seen (telerama_to_xmltv_id r.data0) = true
    · rw [if_pos hc] at hp
      obtain ⟨hns, r', hfind, hd⟩ := ih seen p hp
      have hne : (telerama_to_xmltv_id r.data0 == p.1) = false := by
        apply beq_false_of_ne
        intro he
        rw [he] at hc
        exact absurd hc (by simp [hns])
      exact ⟨hns, r', by rw [List.find?_cons_of_neg _ (by simp [hne])]; exact hfind, hd⟩
    · rw [if_neg hc] at hp
      rcases List.mem_cons.mp hp with rfl | hp'
      · refine ⟨Bool.eq_false_iff.mpr hc, r, ?_, rfl⟩
        exact List.find?_cons_of_pos _ (by simp)
      · obtain ⟨hns, r', hfind, hd⟩ := ih _ p hp'
        have hns2 : (telerama_to_xmltv_id r.data0 == p.1 || idsContain seen p.1) = false := hns
        rw [Bool.or_eq_false_iff] at hns2
        refine ⟨hns2.2, r', ?_, hd⟩
        rw [List.find?_cons_of_neg _ (by simp [hns2.1])]
        exact hfind

theorem firstSeen_countP (rs : List Rec) :
    ∀ (seen : List (List Char)) (id nm : List Char), (id, nm) ∈ firstSeen seen rs →
      (firstSeen seen rs).countP (fun p => p.1 == id) = 1 := by
  induction rs with
  | nil => intro seen id nm hp; simp [firstSeen] at hp
  | cons r rs ih =>
    intro seen id nm hp
    simp only [firstSeen] at hp ⊢
    by_cases hc : idsContain seen (telerama_to_xmltv_id r.data0) = true
    · rw [if_pos hc] at hp ⊢
      exact ih seen id nm hp
    · rw [if_neg hc] at hp ⊢
      rcases List.mem_cons.mp hp with heq | hp'
      · obtain ⟨h1, h2⟩ := Prod.mk.injEq .. ▸ heq
        rw [List.countP_cons]
        have h0 : (firstSeen (telerama_to_xmltv_id r.data0 :: seen) rs).countP
            (fun p => p.1 == id) = 0 := by
          rw [List.countP_eq_zero]
          intro q hq
          have hq1 := (firstSeen_mem rs _ q hq).1
          have hq2 : (telerama_to_xmltv_id r.data0 == q.1 || idsContain seen q.1) = false := hq1
          rw [Bool.or_eq_false_iff] at hq2
          simp only [beq_eq_false_iff_ne, ne_eq] at hq2
          have hne : q.1 ≠ id := fun hqe => hq2.1 (by rw [hqe, h1])
          simp [hne]
        rw [h0]
        simp [← h1]
      · have hIH := ih (telerama_to_xmltv_id r.data0 :: seen) id nm hp'
        rw [List.countP_cons, hIH]
        have hns := (firstSeen_mem rs _ (id, nm) hp').1
        have hns2 : (telerama_to_xmltv_id r.data0 == id || idsContain seen id) = false := hns
        rw [Bool.or_eq_false_iff] at hns2
        simp [hns2.1]

/-- C8 — adding a channel is idempotent per identifier: any channel element of
the built document is the unique one carrying its id (the `find` guard at
source line 235 skips re-declaration), and its display name is the one of the
first record carrying that id. -/
theorem c8_channel_idempotent (rs : List Rec) (id nm : List Char)
    (h : RootElem.chan id nm ∈ buildDoc rs) :
    (buildDoc rs).countP (fun e =>
        match e with
        | RootElem.chan i _ => i == id
        | RootElem.prog _ => false) = 1 ∧
      ∃ r, rs.find? (fun r => telerama_to_xmltv_id r.data0 == id) = some r ∧ nm = r.data1 := by
  have hdoc : buildDoc rs =
      ((firstSeen [] rs).reverse.map fun p => RootElem.chan p.1 p.2) ++
        rs.map RootElem.prog := by
    simpa [buildDoc, chanIds] using foldl_addRecord_shape rs []
  rw [hdoc] at h ⊢
  have hmem : (id, nm) ∈ firstSeen [] rs := by
    rcases List.mem_append.mp h with hmem | hmem
    · obtain ⟨p, hpfs, hpe⟩ := List.mem_map.mp hmem
      obtain ⟨rfl, rfl⟩ : p.1 = id ∧ p.2 = nm := by
        injection hpe with h1 h2
        exact ⟨h1, h2⟩
      simpa using List.mem_reverse.mp hpfs
    · obtain ⟨r', -, habs⟩ := List.mem_map.mp hmem
      cases habs
  constructor
  · rw [List.countP_append]
    have hprogs : (rs.map RootElem.prog).countP (fun e =>
        match e with
        | RootElem.chan i _ => i == id
        | RootElem.prog _ => false) = 0 := by
      rw [List.countP_eq_zero]
      intro e he
      obtain ⟨r', -, rfl⟩ := List.mem_map.mp he
      simp
    rw [hprogs, List.countP_map, List.countP_reverse]
    have := firstSeen_countP rs [] id nm hmem
    simpa using this
  · obtain ⟨-, r', hfind, hd⟩ := firstSeen_mem rs [] (id, nm) hmem
    exact ⟨r', hfind, hd⟩

/-- Witness for C8: two records share channel id `"1"` with different display
names; the document keeps one channel element and the first name `"A"`. -/
theorem c8_witness :
    (buildDoc [{ data0 := str "1", data1 := str "A" },
        { data0 := str "1", data1 := str "B" }]).countP (fun e =>
        match e with
        | RootElem.chan i _ => i == str "1.tv.telerama.fr"
        | RootElem.prog _ => false) = 1 ∧
      ∃ r, ([{ data0 := str "1", data1 := str "A" },
          { data0 := str "1", data1 := str "B" }] : List Rec).find?
            (fun r => telerama_to_xmltv_id r.data0 == str "1.tv.telerama.fr") = some r ∧
        str "A" = r.data1 :=
  c8_channel_idempotent
    [{ data0 := str "1", data1 := str "A" }, { data0 := str "1", data1 := str "B" }]
    (str "1.tv.telerama.fr") (str "A") (by decide)

/-! ### Channel-id mapping roundtrip (claim C9) -/

theorem isPrefixOf_append_left {p t u : List Char}
    (h : p.isPrefixOf (t ++ u) = true) (hle : p.length ≤ t.length) :
    p.isPrefixOf t = true := by
  rw [List.isPrefixOf_iff_prefix, List.prefix_iff_eq_take] at h ⊢
  rw [h, List.take_append_of_le_length hle]
  simp

theorem eq_take_of_isPrefixOf_append {p t : List Char}
    (h : p.isPrefixOf (t ++ p) = true) (hlt : t.length < p.length) :
    t = p.take t.length := by
  rw [List.isPrefixOf_iff_prefix, List.prefix_iff_eq_take] at h
  have h2 := congrArg (List.take t.length) h
  rw [List.take_take, min_eq_left (le_of_lt hlt), List.take_left] at h2
  exact h2.symm

/-- `str.replace(sfx, '')` applied to `c ++ sfx` gives back `c`, provided
`sfx` occurs nowhere in `c` and has no self-overlap (no proper prefix of `sfx`
completed by `sfx` itself matches `sfx` again at the junction). -/
theorem replaceAux_append_self (sfx : List Char) (hs : sfx ≠ [])
    (hnb : ∀ k, k < sfx.length → 1 ≤ k → sfx.isPrefixOf (sfx.take k ++ sfx) = false) :
    ∀ (c : List Char) (fuel : Nat), (c ++ sfx).length ≤ fuel →
      (∀ i, sfx.isPrefixOf (c.drop i) = false) →
      replaceAux sfx fuel (c ++ sfx) = c := by
  intro c
  induction c with
  | nil =>
    intro fuel hf hocc
    simp only [List.nil_append] at hf ⊢
    obtain ⟨s0, srest, rfl⟩ : ∃ s0 srest, sfx = s0 :: srest := by
      cases sfx with
      | nil => exact absurd rfl hs
      | cons s0 srest => exact ⟨s0, srest, rfl⟩
    cases fuel with
    | zero => simp at hf
    | succ f =>
      rw [replaceAux,
        if_pos ⟨hs, List.isPrefixOf_iff_prefix.mpr (List.prefix_refl _)⟩,
        List.drop_length]
      cases f <;> rfl
  | cons a c' ih =>
    intro fuel hf hocc
    cases fuel with
    | zero => simp at hf
    | succ f =>
      rw [List.cons_append, replaceAux]
      have hcond : ¬(sfx ≠ [] ∧ sfx.isPrefixOf (a :: (c' ++ sfx)) = true) := by
        rintro ⟨-, hpre⟩
        rw [← List.cons_append] at hpre
        by_cases hlen : sfx.length ≤ (a :: c').length
        · have hp : sfx.isPrefixOf (a :: c') = true := isPrefixOf_append_left hpre hlen
          have h0 := hocc 0
          rw [List.drop_zero] at h0
          exact absurd hp (by simp [h0])
        · push_neg at hlen
          have ht : (a :: c') = sfx.take (a :: c').length :=
            eq_take_of_isPrefixOf_append hpre hlen
          have hfalse := hnb (a :: c').length hlen (by simp)
          rw [← ht] at hfalse
          rw [hpre] at hfalse
          cases hfalse
      rw [if_neg hcond]
      congr 1
      apply ih f
      · simp only [List.length_append, List.length_cons] at hf ⊢
        omega
      · intro i
        have h := hocc (i + 1)
        rwa [List.drop_succ_cons] at h

/-- Counterexample to C9 as stated: the native identifier `".tv.telerama.fr"`
maps to `".tv.telerama.fr.tv.telerama.fr"`, and mapping back removes *every*
occurrence of the suffix (Python `str.replace` replaces all), returning the
empty string instead of the original identifier. -/
theorem c9_counterexample :
    xmltv_to_telerama_id (telerama_to_xmltv_id (str ".tv.telerama.fr")) ≠
      str ".tv.telerama.fr" := by
  decide

/-- C9, amended — the roundtrip holds exactly on native identifiers in which
the domain suffix does not occur (true of every real Télérama channel id):
to-then-from is the identity there, and from-then-to is the identity on the
namespaced identifiers such native ids produce. -/
theorem c9_roundtrip_amended (c : List Char)
    (hocc : ∀ i, i < c.length → (str ".tv.telerama.fr").isPrefixOf (c.drop i) = false) :
    xmltv_to_telerama_id (telerama_to_xmltv_id c) = c ∧
      telerama_to_xmltv_id (xmltv_to_telerama_id (telerama_to_xmltv_id c)) =
        telerama_to_xmltv_id c := by
  have hocc' : ∀ i, (str ".tv.telerama.fr").isPrefixOf (c.drop i) = false := by
    intro i
    by_cases h : i < c.length
    · exact hocc i h
    · rw [List.drop_eq_nil_of_le (by omega)]
      decide
  have h1 : xmltv_to_telerama_id (telerama_to_xmltv_id c) = c := by
    unfold xmltv_to_telerama_id telerama_to_xmltv_id pyReplace
    exact replaceAux_append_self (str ".tv.telerama.fr") (by decide) (by decide)
      c _ (Nat.le_refl _) hocc'
  exact ⟨h1, by rw [h1]⟩

/-- Witness for C9 on the realistic native identifier `"19"`. -/
theorem c9_witness :
    xmltv_to_telerama_id (telerama_to_xmltv_id (str "19")) = str "19" ∧
      telerama_to_xmltv_id (xmltv_to_telerama_id (telerama_to_xmltv_id (str "19"))) =
        telerama_to_xmltv_id (str "19") :=
  c9_roundtrip_amended (str "19") (by decide)
